import Mathlib

/-!
Shallow embedding of the go-config configuration manager
(package `config`: `manager.go` and the option file) and proofs about it.

Conventions of the embedding:
* Go `interface` values stored in options are modelled by the inductive
  type `GoValue`.
* Go panics and returned `error` values are both modelled explicitly:
  a function that can panic returns `Except GoErr _`, a function that
  returns an error pairs its result with `Option GoErr`.
* The mutable receiver `*Config` becomes explicit state passing:
  a Go method `func (c *Config) F(...) T` becomes
  `Config.F : Config → ... → Config × T` (plus `Except` when it can panic).
* Go maps (`map[string]*OptGroup`) are modelled as association lists with
  unique keys; map iteration order is fixed to insertion order.
* The source-parser hooks (`Pre`, `Parse`, `Post`) are external
  collaborators; a parser is modelled by its name, priority and the
  outcome of each hook.
-/

namespace GoConfig

/-- Decidable equality for `Except`, used to evaluate closed statements
about panicking operations. -/
instance {e a : Type} [DecidableEq e] [DecidableEq a] : DecidableEq (Except e a)
  | .error x, .error y =>
    if h : x = y then .isTrue (h ▸ rfl) else .isFalse (fun hc => h (Except.error.inj hc))
  | .error _, .ok _ => .isFalse (fun hc => Except.noConfusion hc)
  | .ok _, .error _ => .isFalse (fun hc => Except.noConfusion hc)
  | .ok x, .ok y =>
    if h : x = y then .isTrue (h ▸ rfl) else .isFalse (fun hc => h (Except.ok.inj hc))

/-- Runtime value stored in an option (a Go interface value). -/
inductive GoValue where
  | vStr (s : String)
  | vInt (n : Int)
  deriving DecidableEq

/-- Errors and panics of the manager, as an explicit taxonomy.
`errParsed` is the panic value `ErrParsed`, `errNotParsed` is
`ErrNotParsed`; the other constructors model the `fmt.Errorf` values
produced by the source, keeping the data they name. -/
inductive GoErr where
  | errParsed
  | errNotParsed
  | emptySep
  | negativePriority
  | noGroup (g : String)
  | noOpt (o : String)
  | hookFailed (msg : String)
  | parserFailed (pname : String) (msg : String)
  | missingRequired (group opt : String)
  | validatorFailed (msg : String)
  | dupOpt (g o : String)
  | typeAssertFailed
  | unsupportedType (t : String)
  deriving DecidableEq

/-- The closed enumeration `optType` of supported option value kinds. -/
inductive optType where
  | noneType | stringType | intType | int8Type | int16Type | int32Type | int64Type
  | uintType | uint8Type | uint16Type | uint32Type | uint64Type
  | float32Type | float64Type
  | stringsType | intsType | int64sType | uintsType | uint64sType
  deriving DecidableEq

/-- The name of each option type (the `optTypeMap` table). -/
def optTypeName : optType → String
  | .noneType => "none"
  | .stringType => "string"
  | .intType => "int"
  | .int8Type => "int8"
  | .int16Type => "int16"
  | .int32Type => "int32"
  | .int64Type => "int64"
  | .uintType => "uint"
  | .uint8Type => "uint8"
  | .uint16Type => "uint16"
  | .uint32Type => "uint32"
  | .uint64Type => "uint64"
  | .float32Type => "float32"
  | .float64Type => "float64"
  | .stringsType => "[]string"
  | .intsType => "[]int"
  | .int64sType => "[]int64"
  | .uintsType => "[]uint"
  | .uint64sType => "[]uint64"

/-- The struct `baseOpt`: identity and metadata of a registered option.
The Go field `_type` is called `typ` here; `Default` is an interface
value, with Go `nil` modelled as `none`. -/
structure baseOpt where
  Name : String
  Help : String
  Short : String
  Required : Bool
  Default : Option GoValue
  typ : optType
  deriving DecidableEq

/-- Modelled from the spec: the conversion utility `ToString` is an
out-of-scope collaborator; on raw text it yields that text. -/
def ToString (s : String) : Except String String := .ok s

/-- Modelled from the spec: the conversion utility `ToInt64` is an
out-of-scope collaborator; it converts decimal text to an integer and
fails with a type-conversion error on non-numeric text. -/
def ToInt64 (s : String) : Except String Int :=
  match s.toInt? with
  | some n => .ok n
  | none => .error ("invalid integer: " ++ s)

/-- Method `baseOpt.GetDefault`: returns the default value after a type
assertion matching the declared type; a failed assertion or an
unsupported type is a Go panic, modelled by `Except.error`. -/
def baseOpt.GetDefault (o : baseOpt) : Except GoErr (Option GoValue) :=
  match o.Default with
  | none => .ok none
  | some d =>
    match o.typ with
    | .stringType =>
      match d with
      | .vStr s => .ok (some (.vStr s))
      | _ => .error .typeAssertFailed
    | .intType =>
      match d with
      | .vInt n => .ok (some (.vInt n))
      | _ => .error .typeAssertFailed
    | t => .error (.unsupportedType (optTypeName t))

/-- Method `baseOpt.Parse`: converts raw text to the option's declared
type.  The outer `Except` is a Go panic (unsupported type); the inner
`Except` is the returned conversion error. -/
def baseOpt.Parse (o : baseOpt) (data : String) : Except GoErr (Except String GoValue) :=
  match o.typ with
  | .stringType =>
    .ok ((ToString data).map GoValue.vStr)
  | .intType =>
    match ToInt64 data with
    | .error e => .ok (.error e)
    | .ok n => .ok (.ok (.vInt n))
  | t => .error (.unsupportedType (optTypeName t))

/-- Function `newBaseOpt`: builds the record and calls `GetDefault`,
which may panic on a default value of the wrong shape. -/
def newBaseOpt (short name : String) (d : Option GoValue) (required : Bool)
    (help : String) (t : optType) : Except GoErr baseOpt :=
  let o : baseOpt := ⟨name, help, short, required, d, t⟩
  match o.GetDefault with
  | .error e => .error e
  | .ok _ => .ok o

/-- The struct `strOpt`, wrapping `baseOpt`. -/
structure strOpt where
  base : baseOpt
  deriving DecidableEq

/-- The struct `intOpt`, wrapping `baseOpt`. -/
structure intOpt where
  base : baseOpt
  deriving DecidableEq

/-- Function `NewStrOpt`: a new string option. -/
def NewStrOpt (short name : String) (d : Option GoValue) (required : Bool)
    (help : String) : Except GoErr strOpt :=
  (newBaseOpt short name d required help .stringType).map strOpt.mk

/-- Function `NewIntOpt`: a new int option.  The source passes
`stringType` as the option type. -/
def NewIntOpt (short name : String) (d : Option GoValue) (required : Bool)
    (help : String) : Except GoErr intOpt :=
  (newBaseOpt short name d required help .stringType).map intOpt.mk

/-- Runtime state of one registered option inside a group: the
registered option, its current value (absent until first written) and
the priority recorded by the last successful write. -/
structure OptEntry where
  opt : baseOpt
  value : Option GoValue
  setPriority : Int
  deriving DecidableEq

/-- The struct `OptGroup`: local name, full path, and the option map
(modelled as a list of entries keyed by option name). -/
structure OptGroup where
  name : String
  fullName : String
  opts : List OptEntry
  deriving DecidableEq

/-- Modelled from the spec: the `OptGroup` constructor `newOptGroup`
from the group file, which is not under src/; a fresh group has the
given names and no options. -/
def OptGroup.make (name fullName : String) : OptGroup := ⟨name, fullName, []⟩

/-- Lookup of a registered option by name inside a group. -/
def OptGroup.findOpt (g : OptGroup) (name : String) : Option OptEntry :=
  g.opts.find? (fun e => e.opt.Name == name)

/-- Update of the single entry whose option has the given name
(a Go map holds one slot per key). -/
def updateFirstOpt (name : String) (f : OptEntry → OptEntry) : List OptEntry → List OptEntry
  | [] => []
  | e :: rest =>
    if e.opt.Name == name then f e :: rest
    else e :: updateFirstOpt name f rest

/-- Modelled from the spec: `OptGroup.setOptValue` from the group file,
which is not under src/.  It fails when the option does not exist; a
write wins when its priority is `0`, or the value is still absent, or
the priority is at least the recorded `setPriority`; a losing write is
a silent no-op. -/
def OptGroup.setOptValue (g : OptGroup) (priority : Int) (name : String)
    (v : GoValue) : OptGroup × Option GoErr :=
  match g.findOpt name with
  | none => (g, some (.noOpt name))
  | some e =>
    if priority = 0 ∨ e.value = none ∨ e.setPriority ≤ priority then
      (⟨g.name, g.fullName, updateFirstOpt name (fun e2 => ⟨e2.opt, some v, priority⟩) g.opts⟩, none)
    else (g, none)

/-- Modelled from the spec: `OptGroup.registerOpt` from the group file,
which is not under src/.  A duplicate name fails loudly unless the
ignore-reregister setting is on, in which case it replaces the old
registration; a fresh registration has no value yet. -/
def OptGroup.registerOpt (g : OptGroup) (isPanic : Bool) (opt : baseOpt) :
    Except GoErr OptGroup :=
  match g.findOpt opt.Name with
  | some _ =>
    if isPanic then .error (.dupOpt g.name opt.Name)
    else .ok ⟨g.name, g.fullName, updateFirstOpt opt.Name (fun _ => ⟨opt, none, 0⟩) g.opts⟩
  | none => .ok ⟨g.name, g.fullName, g.opts ++ [⟨opt, none, 0⟩]⟩

/-- Modelled from the spec: `OptGroup.checkRequiredOption` from the
group file, which is not under src/; every required option must have a
non-absent resolved value (its own default counts), and the first
violation is reported naming the group and the option. -/
def OptGroup.checkRequiredOption (g : OptGroup) : Option GoErr :=
  match g.opts.find? (fun e => e.opt.Required && e.value.isNone && e.opt.Default.isNone) with
  | some e => some (.missingRequired g.fullName e.opt.Name)
  | none => none

/-- Modelled from the spec: the source-parser capability is an external
collaborator; a parser is its name, its declared priority, and the
outcome of each of its three hooks (`none` is success). -/
structure Parser where
  name : String
  priority : Int
  preErr : Option String
  parseErr : Option String
  postErr : Option String
  deriving DecidableEq

/-- The three phases of the parse pipeline. -/
inductive Phase where
  | pre | parse | post
  deriving DecidableEq

/-- Sequential run of one phase over the parser list: the trace of
invoked parsers (mirroring the debug log of `Config.Parse`) and the
first failure, if any. -/
def runPhase (ph : Phase) (f : Parser → Option String) :
    List Parser → List (Phase × String) × Option (Parser × String)
  | [] => ([], none)
  | p :: rest =>
    match f p with
    | some e => ([(ph, p.name)], some (p, e))
    | none =>
      ((ph, p.name) :: (runPhase ph f rest).1, (runPhase ph f rest).2)

/-- The required-option walk of `Config.Parse` over all groups
(map iteration fixed to insertion order). -/
def checkGroups : List (String × OptGroup) → Option GoErr
  | [] => none
  | (_, g) :: rest =>
    match g.checkRequiredOption with
    | some e => some e
    | none => checkGroups rest

/-- The validator loop at the end of `Config.Parse`; a validator is an
external zero-argument check modelled by its outcome. -/
def runValidators : List (Option String) → Option GoErr
  | [] => none
  | v :: rest =>
    match v with
    | some e => some (.validatorFailed e)
    | none => runValidators rest

/-- Lookup in the group map (Go `c.groups[k]`). -/
def mapFind : List (String × OptGroup) → String → Option OptGroup
  | [], _ => none
  | (k, v) :: rest, key => if k = key then some v else mapFind rest key

/-- Replacement of the value at an existing key of the group map
(Go `c.groups[k] = g` through the group pointer). -/
def mapSet : List (String × OptGroup) → String → OptGroup → List (String × OptGroup)
  | [], _, _ => []
  | (k, v) :: rest, key, g =>
    if k = key then (k, g) :: rest else (k, v) :: mapSet rest key g

/-- The struct `Config`: the configuration manager state.  The fields
`vName`/`vHelp`/`vVersion` and the observer callback are omitted (no
claim mentions them); the Go field `groupPrefix` is called `groupPre`. -/
structure Config where
  parsed : Bool
  isRequired : Bool
  isDebug : Bool
  isPanic : Bool
  isZero : Bool
  args : List String
  cliArgs : List String
  parsers : List Parser
  groupSep : String
  groupName : String
  groupPre : String
  groups : List (String × OptGroup)
  validators : List (Option String)
  deriving DecidableEq

/-- Modelled from the spec: the constant `DefaultGroupName`, declared
outside src/; the default group is named DEFAULT. -/
def DefaultGroupName : String := "DEFAULT"

/-- Method `Config.SetGroupSeparator`: an empty separator panics; when
parsed it panics with `ErrParsed`; otherwise it stores the separator
and recomputes the default-group prefix. -/
def Config.SetGroupSeparator (c : Config) (sep : String) : Except GoErr Config :=
  if sep = "" then .error .emptySep
  else if c.parsed then .error .errParsed
  else .ok { c with groupSep := sep, groupPre := c.groupName ++ sep }

/-- Function `NewConfig`: zero/panic/required on, default group name
DEFAULT, empty group map, separator set to a dot. -/
def NewConfig : Config :=
  let conf : Config :=
    { parsed := false, isRequired := true, isDebug := false, isPanic := true
      isZero := true, args := [], cliArgs := [], parsers := []
      groupSep := "", groupName := DefaultGroupName, groupPre := ""
      groups := [], validators := [] }
  match conf.SetGroupSeparator "." with
  | .ok c => c
  | .error _ => conf

/-- Go `strings.TrimPrefix`, written over the character list so that it
evaluates by kernel reduction. -/
def trimPre (s pre : String) : String :=
  if pre.data.isPrefixOf s.data then String.mk (s.data.drop pre.data.length) else s

/-- Worker for `goSplit`: structural recursion on a fuel bound (at
least the length of the text) so that it evaluates by kernel
reduction. -/
def splitCharsAux (sep : List Char) : Nat → List Char → List Char → List (List Char)
  | _, [], acc => [acc.reverse]
  | 0, s, acc => [acc.reverse ++ s]
  | fuel + 1, c :: rest, acc =>
    if sep.isPrefixOf (c :: rest) then
      acc.reverse :: splitCharsAux sep fuel ((c :: rest).drop sep.length) []
    else
      splitCharsAux sep fuel rest (c :: acc)

/-- Go `strings.Split` for a non-empty separator. -/
def goSplit (s sep : String) : List String :=
  (splitCharsAux sep.data (s.data.length + 1) s.data []).map String.mk

/-- Go `strings.Join`. -/
def goJoin (sep : String) : List String → String
  | [] => ""
  | [x] => x
  | x :: rest => x ++ sep ++ goJoin sep rest

/-- Method `Config.getGroupName`: the empty name denotes the default
group. -/
def Config.getGroupName (c : Config) (name : String) : String :=
  if name = "" then c.groupName else name

/-- The key under which `getGroupByName` looks a group up when not
creating: the name with the default-group prefix trimmed, the empty
name mapped to the default group name. -/
def Config.lookupKey (c : Config) (name : String) : String :=
  c.getGroupName (trimPre name c.groupPre)

/-- Method `Config.getGroupByName` with `new = false`: a pure lookup. -/
def Config.getGroupByName (c : Config) (name : String) : Option OptGroup :=
  mapFind c.groups (c.lookupKey name)

/-- Method `Config.newOptGroup`: inserts a fresh group under `name`
only when the key is absent (an existing binding is never replaced). -/
def Config.newOptGroup (c : Config) (name fullName : String) : Config :=
  match mapFind c.groups name with
  | some _ => c
  | none => { c with groups := c.groups ++ [(name, OptGroup.make name fullName)] }

/-- The creation loop of `Config.getGroupByName` with `new = true`:
for each path segment it creates the group under its full prefix path
and under the bare segment. -/
def Config.newGroupChain : Config → List String → List String → Config
  | c, _, [] => c
  | c, done, gname :: rest =>
    Config.newGroupChain
      ((c.newOptGroup (goJoin c.groupSep (done ++ [gname]))
          (goJoin c.groupSep (done ++ [gname]))).newOptGroup gname
        (goJoin c.groupSep (done ++ [gname])))
      (done ++ [gname]) rest

/-- Method `Config.getGroupByName` with `new = true`: creates the chain
of groups along the path and returns the group keyed by the trimmed
path. -/
def Config.getGroupByNameNew (c : Config) (name : String) : Config × Option OptGroup :=
  if trimPre name c.groupPre = "" then
    (c.newOptGroup c.groupName c.groupName,
      mapFind (c.newOptGroup c.groupName c.groupName).groups c.groupName)
  else
    (c.newGroupChain [] (goSplit (trimPre name c.groupPre) c.groupSep),
      mapFind (c.newGroupChain [] (goSplit (trimPre name c.groupPre) c.groupSep)).groups
        (trimPre name c.groupPre))

/-- Method `Config.NewGroup`: panics with `ErrParsed` when parsed,
otherwise creates and returns the group. -/
def Config.NewGroup (c : Config) (group : String) : Except GoErr (Config × Option OptGroup) :=
  if c.parsed then .error .errParsed
  else .ok (c.getGroupByNameNew group)

/-- Method `Config.HasGroup`. -/
def Config.HasGroup (c : Config) (group : String) : Bool :=
  (c.getGroupByName group).isSome

/-- Method `Config.registerOpt`: panics with `ErrParsed` when parsed,
otherwise creates the group chain and registers the option into the
group keyed by the trimmed path. -/
def Config.registerOpt (c : Config) (group : String) (cli : Bool) (opt : baseOpt) :
    Except GoErr Config :=
  if c.parsed then .error .errParsed
  else
    let c1 := (c.getGroupByNameNew group).1
    let key := c.lookupKey group
    match mapFind c1.groups key with
    | none => .ok c1
    | some g =>
      (g.registerOpt c.isPanic opt).map
        (fun g2 => { c1 with groups := mapSet c1.groups key g2 })

/-- Method `Config.registerStruct`: panics with `ErrParsed` when
parsed.  Modelled from the spec: the reflective extraction of the
struct fields is an external concern; the struct stands for the list of
options it would contribute plus the optional validator outcome it
exposes. -/
def Config.registerStruct (c : Config) (group : String) (opts : List baseOpt)
    (validator : Option (Option String)) : Except GoErr Config :=
  if c.parsed then .error .errParsed
  else
    let step (acc : Except GoErr Config) (o : baseOpt) : Except GoErr Config :=
      match acc with
      | .error e => .error e
      | .ok cc => cc.registerOpt group false o
    match (opts.foldl step (.ok c)) with
    | .error e => .error e
    | .ok cc =>
      .ok { cc with validators := cc.validators ++ (match validator with
                                                   | some v => [v]
                                                   | none => []) }

/-- Method `Config.SetDefaultGroupName`: panics with `ErrParsed` when
parsed, otherwise renames the default group and recomputes the
prefix. -/
def Config.SetDefaultGroupName (c : Config) (name : String) : Except GoErr Config :=
  if c.parsed then .error .errParsed
  else .ok { c with groupName := name, groupPre := name ++ c.groupSep }

/-- The order used by `Config.sortParsers`: ascending declared
priority. -/
def parserLE (a b : Parser) : Prop := a.priority ≤ b.priority

instance : DecidableRel parserLE := fun a b => inferInstanceAs (Decidable (a.priority ≤ b.priority))

instance : IsTotal Parser parserLE := ⟨fun a b => Int.le_total a.priority b.priority⟩

instance : IsTrans Parser parserLE := ⟨fun _ _ _ => Int.le_trans⟩

/-- Method `Config.sortParsers`: the stable ascending-priority sort
performed by `sort.SliceStable`, modelled by stable insertion sort. -/
def sortParsers (ps : List Parser) : List Parser :=
  List.insertionSort parserLE ps

/-- Method `Config.AddParser`: panics with `ErrParsed` when parsed,
otherwise appends the parsers and re-sorts the whole list. -/
def Config.AddParser (c : Config) (ps : List Parser) : Except GoErr Config :=
  if c.parsed then .error .errParsed
  else .ok { c with parsers := sortParsers (c.parsers ++ ps) }

/-- Method `Config.RemoveParser`: panics with `ErrParsed` when parsed;
for the first parser with the given name it rebuilds the list as
`parsers index-prefix ++ parsers index-suffix` and returns that parser,
or returns nothing when absent. -/
def Config.RemoveParser (c : Config) (name : String) :
    Except GoErr (Config × Option Parser) :=
  if c.parsed then .error .errParsed
  else
    match c.parsers.findIdx? (fun p => p.name == name) with
    | some i => .ok ({ c with parsers := c.parsers.take i ++ c.parsers.drop i }, c.parsers[i]?)
    | none => .ok (c, none)

/-- Method `Config.GetParser`: the first parser with the given name. -/
def Config.GetParser (c : Config) (name : String) : Option Parser :=
  c.parsers.find? (fun p => p.name == name)

/-- Method `Config.HasParser`. -/
def Config.HasParser (c : Config) (name : String) : Bool :=
  (c.GetParser name).isSome

/-- Method `Config.SetOptValue`: rejects a negative priority, fails when
the group does not exist, and otherwise delegates to the group's
priority-arbitrated setter, writing the updated group back. -/
def Config.SetOptValue (c : Config) (priority : Int) (groupName optName : String)
    (v : GoValue) : Config × Option GoErr :=
  if priority < 0 then (c, some .negativePriority)
  else
    match mapFind c.groups (c.lookupKey groupName) with
    | none => (c, some (.noGroup groupName))
    | some g =>
      ({ c with groups := mapSet c.groups (c.lookupKey groupName) (g.setOptValue priority optName v).1 },
        (g.setOptValue priority optName v).2)

/-- Reader for theorems: the current value of an option, through the
same lookup path the accessors use. -/
def Config.optValue (c : Config) (groupName optName : String) : Option GoValue :=
  match c.getGroupByName groupName with
  | none => none
  | some g =>
    match g.findOpt optName with
    | none => none
    | some e => e.value

/-- Method `Config.Parsed`. -/
def Config.Parsed (c : Config) : Bool := c.parsed

/-- Predicate: every hook of every registered parser succeeds. -/
def Parser.hooksOk (p : Parser) : Bool :=
  p.preErr.isNone && p.parseErr.isNone && p.postErr.isNone

/-- Predicate: every hook of every parser of the config succeeds. -/
def Config.allHooksOk (c : Config) : Bool :=
  c.parsers.all Parser.hooksOk

/-- The state at the start of a `Parse` run: the default group
ensured, the CLI arguments stored. -/
def parseStart (c : Config) (args : List String) : Config :=
  { (c.getGroupByNameNew c.groupName).1 with cliArgs := args }

/-- The state of a `Parse` run once the pre phase has passed: the
parsed flag raised, irreversibly. -/
def parseFinal (c : Config) (args : List String) : Config :=
  { parseStart c args with parsed := true }

/-- The body of `Config.Parse` once past the panic guard: ensures the
default group, stores the CLI arguments, runs the pre hooks, marks
`parsed` (before the parse hooks), runs the parse hooks (wrapping a
failure with the parser's identity), runs the post hooks, checks
required options over all groups, then runs the validators.  The
result carries the final state, the returned error, and the trace of
hook invocations (the debug log). -/
def Config.parseRun (c : Config) (args : List String) :
    Config × Option GoErr × List (Phase × String) :=
  match (runPhase .pre Parser.preErr (parseStart c args).parsers).2 with
  | some pe =>
    (parseStart c args, some (.hookFailed pe.2),
      (runPhase .pre Parser.preErr (parseStart c args).parsers).1)
  | none =>
    match (runPhase .parse Parser.parseErr (parseFinal c args).parsers).2 with
    | some pe =>
      (parseFinal c args, some (.parserFailed pe.1.name pe.2),
        (runPhase .pre Parser.preErr (parseStart c args).parsers).1 ++
        (runPhase .parse Parser.parseErr (parseFinal c args).parsers).1)
    | none =>
      match (runPhase .post Parser.postErr (parseFinal c args).parsers).2 with
      | some pe =>
        (parseFinal c args, some (.hookFailed pe.2),
          (runPhase .pre Parser.preErr (parseStart c args).parsers).1 ++
          (runPhase .parse Parser.parseErr (parseFinal c args).parsers).1 ++
          (runPhase .post Parser.postErr (parseFinal c args).parsers).1)
      | none =>
        match checkGroups (parseFinal c args).groups with
        | some e =>
          (parseFinal c args, some e,
            (runPhase .pre Parser.preErr (parseStart c args).parsers).1 ++
            (runPhase .parse Parser.parseErr (parseFinal c args).parsers).1 ++
            (runPhase .post Parser.postErr (parseFinal c args).parsers).1)
        | none =>
          match runValidators (parseFinal c args).validators with
          | some e =>
            (parseFinal c args, some e,
              (runPhase .pre Parser.preErr (parseStart c args).parsers).1 ++
              (runPhase .parse Parser.parseErr (parseFinal c args).parsers).1 ++
              (runPhase .post Parser.postErr (parseFinal c args).parsers).1)
          | none =>
            (parseFinal c args, none,
              (runPhase .pre Parser.preErr (parseStart c args).parsers).1 ++
              (runPhase .parse Parser.parseErr (parseFinal c args).parsers).1 ++
              (runPhase .post Parser.postErr (parseFinal c args).parsers).1)

/-- Method `Config.Parse`: panics with `ErrParsed` when already
parsed, otherwise runs the parse pipeline. -/
def Config.Parse (c : Config) (args : List String) :
    Except GoErr (Config × Option GoErr × List (Phase × String)) :=
  if c.parsed then .error .errParsed
  else .ok (c.parseRun args)

/-- Extractor for building concrete configurations in closed
statements: the successful result, or the fallback. -/
def okOr (x : Except GoErr Config) (d : Config) : Config :=
  match x with
  | .ok c => c
  | .error _ => d

/-- Extractor like `okOr` for operations also returning a group. -/
def okOrG (x : Except GoErr (Config × Option OptGroup)) (d : Config) : Config :=
  match x with
  | .ok r => r.1
  | .error _ => d

/-- A concrete optional (non-required) string option named o. -/
def bo1 : baseOpt := ⟨"o", "", "", false, none, .stringType⟩

/-- A concrete required string option named ro with no default. -/
def breq : baseOpt := ⟨"ro", "", "", true, none, .stringType⟩

/-- A concrete config with option o registered in group g. -/
def wcfg : Config := okOr (NewConfig.registerOpt "g" false bo1) NewConfig

/-- A concrete config with one parser whose parse hook fails. -/
def c2cfg : Config := okOr (NewConfig.AddParser [⟨"x", 1, none, some "boom", none⟩]) NewConfig

/-- The result of running `Parse` on `c2cfg`. -/
def c2res : Config × Option GoErr × List (Phase × String) :=
  match c2cfg.Parse [] with
  | .ok r => r
  | .error _ => (c2cfg, none, [])

/-- A concrete config with a required, defaultless, never-written
option ro in group g. -/
def c4cfg : Config := okOr (NewConfig.registerOpt "g" false breq) NewConfig

/-- A concrete config reached by a completed `Parse` call. -/
def pcfg : Config :=
  match NewConfig.Parse [] with
  | .ok r => r.1
  | .error _ => NewConfig

/-- A concrete batch of parsers with duplicate priorities, out of
order. -/
def ps0 : List Parser :=
  [⟨"b", 2, none, none, none⟩, ⟨"a", 1, none, none, none⟩, ⟨"c", 2, none, none, none⟩]

/-- A concrete config after creating group x.log. -/
def c8a : Config := okOrG (NewConfig.NewGroup "x.log") NewConfig

/-- A concrete config after creating x.log and then y.log. -/
def c8b : Config := okOrG (c8a.NewGroup "y.log") c8a

/-- A concrete config with a single parser named cli. -/
def c10cfg : Config := okOr (NewConfig.AddParser [⟨"cli", 1, none, none, none⟩]) NewConfig

/-- A group map contains a violating pair: some group whose full name
is `gn` holds a required option named `onm` whose value is absent and
which has no default. -/
def violatingIn (gs : List (String × OptGroup)) (gn onm : String) : Prop :=
  ∃ k g e, (k, g) ∈ gs ∧ e ∈ g.opts ∧ g.fullName = gn ∧ e.opt.Name = onm ∧
    e.opt.Required = true ∧ e.value = none ∧ e.opt.Default = none

/-- Statement of claim C1's conclusion: with two positive priorities
the higher one's value survives either write order, and a zero-priority
write always overwrites. -/
def C1Prop (c : Config) (gn onm : String) (p1 p2 : Int) (v1 v2 v0 : GoValue) : Prop :=
  (((c.SetOptValue p2 gn onm v2).1.SetOptValue p1 gn onm v1).1.optValue gn onm = some v2)
  ∧ (((c.SetOptValue p1 gn onm v1).1.SetOptValue p2 gn onm v2).1.optValue gn onm = some v2)
  ∧ (∀ (c2 : Config) (g2 : OptGroup) (e2 : OptEntry),
      c2.getGroupByName gn = some g2 → g2.findOpt onm = some e2 →
      (c2.SetOptValue 0 gn onm v0).1.optValue gn onm = some v0)

/-- Statement of the amended claim C2: a pre-hook failure leaves the
registry unparsed and retryable; once the pre phase has passed, the
returned config is parsed and any further `Parse` call panics. -/
def C2Prop (c : Config) (args : List String) : Prop :=
  ∀ c' err tr, c.Parse args = .ok (c', err, tr) →
    (((runPhase .pre Parser.preErr c.parsers).2 ≠ none →
        c'.parsed = false ∧ ∀ args2, ∃ r, c'.Parse args2 = .ok r)
     ∧ ((runPhase .pre Parser.preErr c.parsers).2 = none →
        c'.parsed = true ∧ ∀ args2, c'.Parse args2 = .error .errParsed))

/-- Statement of claim C4's conclusion: with all hooks succeeding, a
violating pair makes `Parse` fail with a missing-required-option error
naming a violating pair, and any such error always names a pair whose
option is required, valueless and defaultless. -/
def C4Prop (c : Config) (args : List String) : Prop :=
  ((∃ gn onm, violatingIn c.groups gn onm) →
    ∃ c' tr gn onm, c.Parse args = .ok (c', some (.missingRequired gn onm), tr) ∧
      violatingIn c'.groups gn onm)
  ∧ (∀ c' tr gn onm, c.Parse args = .ok (c', some (.missingRequired gn onm), tr) →
      violatingIn c'.groups gn onm)

/-- Statement of claim C5's conclusion: `AddParser` yields a list
sorted ascending by priority that is a stable permutation of the old
list followed by the new parsers, and when all hooks succeed `Parse`
invokes the phases over that list in order. -/
def C5Prop (c : Config) (ps : List Parser) : Prop :=
  ∃ c', c.AddParser ps = .ok c'
    ∧ List.Sorted parserLE c'.parsers
    ∧ (∀ n : Int, c'.parsers.filter (fun p => p.priority == n) =
        (c.parsers ++ ps).filter (fun p => p.priority == n))
    ∧ c'.parsers.Perm (c.parsers ++ ps)
    ∧ (c'.allHooksOk = true → ∀ args, ∃ d e,
        c'.Parse args = .ok (d, e,
          (c'.parsers.map fun p => (Phase.pre, p.name)) ++
          (c'.parsers.map fun p => (Phase.parse, p.name)) ++
          (c'.parsers.map fun p => (Phase.post, p.name))))

/-- Statement of claim C6's conclusion: on a parsed config every
structure-changing operation panics (with `ErrParsed`, except that an
empty separator has its own earlier panic), no state escapes, and the
remaining operations keep the config parsed. -/
def C6Prop (c : Config) : Prop :=
  (∀ g, c.NewGroup g = .error .errParsed)
  ∧ (∀ g cl o, c.registerOpt g cl o = .error .errParsed)
  ∧ (∀ g os vd, c.registerStruct g os vd = .error .errParsed)
  ∧ (∀ ps, c.AddParser ps = .error .errParsed)
  ∧ (∀ sep, sep ≠ "" → c.SetGroupSeparator sep = .error .errParsed)
  ∧ (c.SetGroupSeparator "" = .error .emptySep)
  ∧ (∀ n, c.SetDefaultGroupName n = .error .errParsed)
  ∧ (∀ args, c.Parse args = .error .errParsed)
  ∧ (∀ n, c.RemoveParser n = .error .errParsed)
  ∧ (∀ p gn onm v, ((c.SetOptValue p gn onm v).1).parsed = true)

/-- Statement of claim C7's conclusion: creating a.b.c in one call
yields the same config and the same returned group as creating a, then
a.b, then a.b.c. -/
def C7Prop (c : Config) : Prop :=
  ∃ c1 c2 g1 g2,
    c.NewGroup "a" = .ok (c1, g1) ∧ c1.NewGroup "a.b" = .ok (c2, g2) ∧
    c2.NewGroup "a.b.c" = c.NewGroup "a.b.c"

/-- Statement of the amended claim C8: group creation never rebinds an
existing key, so the bare-segment alias keeps the binding made by the
first creation. -/
def C8Prop (c : Config) (path k : String) (g : OptGroup) : Prop :=
  ∀ c' og, c.NewGroup path = .ok (c', og) → mapFind c'.groups k = some g

/-- The full hook-invocation trace of a `Parse` run in which every
hook succeeds: the three phases in order, each over the parser list in
order. -/
def parseTrace (c : Config) : List (Phase × String) :=
  (c.parsers.map fun p => (Phase.pre, p.name)) ++
  (c.parsers.map fun p => (Phase.parse, p.name)) ++
  (c.parsers.map fun p => (Phase.post, p.name))

/-!  Helper lemmas about the map and option-list operations. -/

theorem mapFind_mapSet_self {m : List (String × OptGroup)} {k : String} {g0 : OptGroup}
    (g : OptGroup) (h : mapFind m k = some g0) : mapFind (mapSet m k g) k = some g := by
  induction m with
  | nil => simp [mapFind] at h
  | cons p rest ih =>
    obtain ⟨k0, g1⟩ := p
    by_cases hk : k0 = k
    · subst hk
      simp [mapFind, mapSet]
    · simp only [mapFind, mapSet, if_neg hk] at h ⊢
      exact ih h

theorem mapSet_self {m : List (String × OptGroup)} {k : String} {g : OptGroup}
    (h : mapFind m k = some g) : mapSet m k g = m := by
  induction m with
  | nil => rfl
  | cons p rest ih =>
    obtain ⟨k0, g1⟩ := p
    by_cases hk : k0 = k
    · subst hk
      simp [mapFind] at h
      simp [mapSet, h]
    · simp only [mapFind, if_neg hk] at h
      simp [mapSet, hk, ih h]

theorem mapFind_append_left {m s : List (String × OptGroup)} {k : String} {g : OptGroup}
    (h : mapFind m k = some g) : mapFind (m ++ s) k = some g := by
  induction m with
  | nil => simp [mapFind] at h
  | cons p rest ih =>
    obtain ⟨k0, g1⟩ := p
    by_cases hk : k0 = k
    · subst hk
      simpa [mapFind] using h
    · simp only [List.cons_append, mapFind, if_neg hk] at h ⊢
      exact ih h

theorem find?_updateFirstOpt {l : List OptEntry} {n : String} {e : OptEntry}
    (f : OptEntry → OptEntry) (hf : ∀ x, (f x).opt = x.opt)
    (h : l.find? (fun x => x.opt.Name == n) = some e) :
    (updateFirstOpt n f l).find? (fun x => x.opt.Name == n) = some (f e) := by
  induction l with
  | nil => simp at h
  | cons x rest ih =>
    cases hx : (x.opt.Name == n) with
    | true =>
      simp only [List.find?, hx] at h
      have hfx : ((f x).opt.Name == n) = true := by rw [hf x]; exact hx
      cases h
      simp only [updateFirstOpt, if_pos hx, List.find?, hfx]
    | false =>
      simp only [List.find?, hx] at h
      simp only [updateFirstOpt, if_neg (by simp [hx] : ¬ (x.opt.Name == n) = true),
        List.find?, hx]
      exact ih h

/-!  The behaviour of a single `SetOptValue` on an existing option. -/

theorem SetOptValue_found {c : Config} {gn onm : String} {p : Int} {v : GoValue}
    {g : OptGroup} {e : OptEntry}
    (hp : ¬ p < 0)
    (hg : c.getGroupByName gn = some g)
    (he : g.findOpt onm = some e) :
    (c.SetOptValue p gn onm v).2 = none ∧
    (c.SetOptValue p gn onm v).1.getGroupByName gn = some (g.setOptValue p onm v).1 ∧
    (g.setOptValue p onm v).1.findOpt onm =
      some (if p = 0 ∨ e.value = none ∨ e.setPriority ≤ p then ⟨e.opt, some v, p⟩ else e) := by
  have hmap : mapFind c.groups (c.lookupKey gn) = some g := hg
  have hrun : c.SetOptValue p gn onm v =
      ({ c with groups := mapSet c.groups (c.lookupKey gn) (g.setOptValue p onm v).1 },
        (g.setOptValue p onm v).2) := by
    rw [Config.SetOptValue, if_neg hp]
    simp only [hmap]
  refine ⟨?_, ?_, ?_⟩
  · rw [hrun]
    show (g.setOptValue p onm v).2 = none
    rw [OptGroup.setOptValue]
    simp only [he]
    by_cases hc : p = 0 ∨ e.value = none ∨ e.setPriority ≤ p
    · rw [if_pos hc]
    · rw [if_neg hc]
  · rw [hrun]
    show mapFind (mapSet c.groups (c.lookupKey gn) (g.setOptValue p onm v).1)
      (c.lookupKey gn) = some (g.setOptValue p onm v).1
    exact mapFind_mapSet_self _ hmap
  · rw [OptGroup.setOptValue]
    simp only [he]
    by_cases hc : p = 0 ∨ e.value = none ∨ e.setPriority ≤ p
    · rw [if_pos hc, if_pos hc]
      exact find?_updateFirstOpt _ (fun _ => rfl) he
    · rw [if_neg hc, if_neg hc]
      exact he

/-- Claim C1: for a never-written option, with positive priorities
p1 < p2, writing at p2 then p1 keeps the p2 value, writing at p1 then
p2 keeps the p2 value, and a write at priority 0 always overwrites the
current value regardless of the recorded set-priority. -/
theorem setOptValue_priority_arbitration (c : Config) (gn onm : String)
    (p1 p2 : Int) (v1 v2 v0 : GoValue) (e : OptEntry)
    (hge : (c.getGroupByName gn).bind (fun g => g.findOpt onm) = some e)
    (hfresh : e.value = none) (h1 : 0 < p1) (h12 : p1 < p2) :
    C1Prop c gn onm p1 p2 v1 v2 v0 := by
  obtain ⟨g, hg, he⟩ : ∃ g, c.getGroupByName gn = some g ∧ g.findOpt onm = some e := by
    cases hgg : c.getGroupByName gn with
    | none => rw [hgg] at hge; simp at hge
    | some g => rw [hgg] at hge; exact ⟨g, rfl, hge⟩
  have hcond2 : p2 = 0 ∨ e.value = none ∨ e.setPriority ≤ p2 := Or.inr (Or.inl hfresh)
  have hcond1 : p1 = 0 ∨ e.value = none ∨ e.setPriority ≤ p1 := Or.inr (Or.inl hfresh)
  refine ⟨?_, ?_, ?_⟩
  · -- p2 then p1: the p2 value stays
    obtain ⟨-, hg1, he1⟩ := SetOptValue_found (p := p2) (v := v2) (by omega) hg he
    rw [if_pos hcond2] at he1
    obtain ⟨-, hg2, he2⟩ := SetOptValue_found (p := p1) (v := v1) (by omega) hg1 he1
    rw [if_neg (by simp only [not_or]; refine ⟨by omega, by simp, by simpa using by omega⟩)] at he2
    simp only [Config.optValue, hg2, he2]
  · -- p1 then p2: the p2 value wins
    obtain ⟨-, hg1, he1⟩ := SetOptValue_found (p := p1) (v := v1) (by omega) hg he
    rw [if_pos hcond1] at he1
    obtain ⟨-, hg2, he2⟩ := SetOptValue_found (p := p2) (v := v2) (by omega) hg1 he1
    rw [if_pos (by right; right; simpa using by omega)] at he2
    simp only [Config.optValue, hg2, he2]
  · -- a zero-priority write always overwrites
    intro c2 g2 e2 hg2 he2
    obtain ⟨-, hgz, hez⟩ := SetOptValue_found (p := 0) (v := v0) (by omega) hg2 he2
    rw [if_pos (Or.inl rfl)] at hez
    simp only [Config.optValue, hgz, hez]

/-- Witness for C1 at a concrete config: option o registered in group
g, never written; priorities 1 < 2 and values a, b, z. -/
theorem setOptValue_priority_arbitration_witness :
    ((wcfg.getGroupByName "g").bind (fun g => g.findOpt "o") = some ⟨bo1, none, 0⟩)
    ∧ (0 : Int) < 1 ∧ (1 : Int) < 2
    ∧ C1Prop wcfg "g" "o" 1 2 (.vStr "a") (.vStr "b") (.vStr "z") :=
  ⟨by decide, by decide, by decide,
    setOptValue_priority_arbitration wcfg "g" "o" 1 2 (.vStr "a") (.vStr "b") (.vStr "z")
      ⟨bo1, none, 0⟩ (by decide) rfl (by decide) (by decide)⟩

/-- Claim C3: `SetOptValue` returns an error exactly when the priority
is negative, the group is missing, or the option is missing in the
group; and in every failure case the config is unchanged. -/
theorem setOptValue_error_iff (c : Config) (p : Int) (gn onm : String) (v : GoValue) :
    ((c.SetOptValue p gn onm v).2 ≠ none ↔
      (p < 0 ∨ c.getGroupByName gn = none ∨
        ∃ g, c.getGroupByName gn = some g ∧ g.findOpt onm = none))
    ∧ ((c.SetOptValue p gn onm v).2 ≠ none → (c.SetOptValue p gn onm v).1 = c) := by
  by_cases hp : p < 0
  · have hrun : c.SetOptValue p gn onm v = (c, some .negativePriority) := by
      rw [Config.SetOptValue, if_pos hp]
    constructor
    · rw [hrun]
      simp only [ne_eq, Option.some_ne_none, not_false_iff, true_iff]
      left; exact hp
    · intro _; rw [hrun]
  · cases hfind : mapFind c.groups (c.lookupKey gn) with
    | none =>
      have hrun : c.SetOptValue p gn onm v = (c, some (.noGroup gn)) := by
        rw [Config.SetOptValue, if_neg hp]
        simp only [hfind]
      constructor
      · rw [hrun]
        simp only [ne_eq, Option.some_ne_none, not_false_iff, true_iff]
        right; left; exact hfind
      · intro _; rw [hrun]
    | some g =>
      cases hopt : g.findOpt onm with
      | none =>
        have hset : g.setOptValue p onm v = (g, some (.noOpt onm)) := by
          rw [OptGroup.setOptValue]
          simp only [hopt]
        have hrun : c.SetOptValue p gn onm v =
            ({ c with groups := mapSet c.groups (c.lookupKey gn) g }, some (.noOpt onm)) := by
          rw [Config.SetOptValue, if_neg hp]
          simp only [hfind, hset]
        constructor
        · rw [hrun]
          simp only [ne_eq, Option.some_ne_none, not_false_iff, true_iff]
          right; right; exact ⟨g, hfind, hopt⟩
        · intro _
          rw [hrun]
          show { c with groups := mapSet c.groups (c.lookupKey gn) g } = c
          rw [mapSet_self hfind]
      | some e =>
        have h2 : (c.SetOptValue p gn onm v).2 = none :=
          (SetOptValue_found hp hfind hopt).1
        constructor
        · rw [h2]
          simp only [ne_eq, not_true_eq_false, false_iff, not_or, not_exists, not_and]
          have hfg : c.getGroupByName gn = some g := hfind
          refine ⟨hp, by rw [hfg]; simp, ?_⟩
          intro g' hg'
          have hgg : g' = g := by
            rw [hfg] at hg'
            exact (Option.some_inj.mp hg').symm
          subst hgg
          rw [hopt]; simp
        · intro hcontra
          exact absurd h2 hcontra

/-- Witness for C3 at concrete failing inputs: a negative priority is
rejected and leaves the config unchanged, and both missing-group and
missing-option lookups produce errors. -/
theorem setOptValue_error_iff_witness :
    ((wcfg.SetOptValue (-1) "g" "o" (.vStr "a")).2 ≠ none)
    ∧ ((wcfg.SetOptValue (-1) "g" "o" (.vStr "a")).1 = wcfg)
    ∧ ((wcfg.SetOptValue 1 "nope" "o" (.vStr "a")).2 ≠ none)
    ∧ ((wcfg.SetOptValue 1 "g" "nope" (.vStr "a")).2 ≠ none) :=
  ⟨by decide,
   (setOptValue_error_iff wcfg (-1) "g" "o" (.vStr "a")).2 (by decide),
   by decide, by decide⟩

/-- Claim C9 (code bug): an option built by `NewIntOpt` carries the
string type tag, so its `Parse` method dispatches to the string
conversion: non-numeric text yields no conversion error and numeric
text yields a string, not an int; moreover an int default makes the
constructor panic on its own type assertion. -/
theorem newIntOpt_dispatches_to_string :
    ((NewIntOpt "" "port" none false "help").map
        (fun o => (o.base.typ, o.base.Parse "abc", o.base.Parse "123"))
      = .ok (.stringType, .ok (.ok (.vStr "abc")), .ok (.ok (.vStr "123"))))
    ∧ NewIntOpt "" "port" (some (.vInt 8080)) false "help" = .error .typeAssertFailed :=
  ⟨rfl, rfl⟩

/-- Claim C10 (code bug): `RemoveParser` on a config whose only parser
is named cli returns that parser but rebuilds the parser list as the
original list, so the parser is still found afterwards. -/
theorem removeParser_removes_nothing :
    c10cfg.RemoveParser "cli" = .ok (c10cfg, some ⟨"cli", 1, none, none, none⟩)
    ∧ c10cfg.GetParser "cli" = some ⟨"cli", 1, none, none, none⟩
    ∧ c10cfg.HasParser "cli" = true := by
  refine ⟨?_, by decide, by decide⟩
  show c10cfg.RemoveParser "cli" = _
  decide

/-- Counterexample to claim C2 as stated: a parse-phase hook failure
makes `Parse` return an error, yet the returned config is parsed
(`Parsed` is true) and a second `Parse` call panics with `ErrParsed`. -/
theorem parse_error_leaves_parsed_counterexample :
    ((c2cfg.Parse []).map (fun r => (r.1.Parsed, r.2.1.isSome)) = .ok (true, true))
    ∧ c2res.1.Parse [] = .error .errParsed := by
  constructor
  · decide
  · decide

/-- Counterexample to claim C8 as stated: after creating x.log and then
y.log, looking up the bare segment log returns the group bound to the
first full path x.log, not the most recently created y.log. -/
theorem alias_keeps_first_binding_counterexample :
    ((c8b.getGroupByName "log").map OptGroup.fullName = some "x.log")
    ∧ ("x.log" ≠ "y.log") := by
  constructor
  · decide
  · decide

/-!  Group-creation only ever appends fresh bindings. -/

theorem mapFind_append_right {m s : List (String × OptGroup)} {k : String}
    (h : mapFind m k = none) : mapFind (m ++ s) k = mapFind s k := by
  induction m with
  | nil => rfl
  | cons p rest ih =>
    obtain ⟨k0, g0⟩ := p
    by_cases hk : k0 = k
    · subst hk; simp [mapFind] at h
    · simp only [mapFind, if_neg hk] at h
      simp only [List.cons_append, mapFind, if_neg hk]
      exact ih h

theorem newOptGroup_eq_append (c : Config) (k f : String) :
    ∃ s, c.newOptGroup k f = { c with groups := c.groups ++ s } := by
  cases h : mapFind c.groups k with
  | some g =>
    refine ⟨[], ?_⟩
    rw [Config.newOptGroup]
    simp only [h]
    simp
  | none =>
    refine ⟨[(k, OptGroup.make k f)], ?_⟩
    rw [Config.newOptGroup]
    simp only [h]

theorem newOptGroup_found {c : Config} {k : String} (f : String)
    (h : mapFind c.groups k ≠ none) : c.newOptGroup k f = c := by
  rw [Config.newOptGroup]
  cases hm : mapFind c.groups k with
  | some g => rfl
  | none => exact absurd hm h

theorem mapFind_newOptGroup_self (c : Config) (k f : String) :
    mapFind (c.newOptGroup k f).groups k ≠ none := by
  rw [Config.newOptGroup]
  cases hm : mapFind c.groups k with
  | some g => simp [hm]
  | none =>
    show mapFind (c.groups ++ [(k, OptGroup.make k f)]) k ≠ none
    rw [mapFind_append_right hm]
    simp [mapFind]

theorem mapFind_newOptGroup_mono {c : Config} {k' : String} (k f : String)
    (h : mapFind c.groups k' ≠ none) :
    mapFind (c.newOptGroup k f).groups k' ≠ none := by
  obtain ⟨g, hg⟩ := Option.ne_none_iff_exists'.mp h
  obtain ⟨s, hs⟩ := newOptGroup_eq_append c k f
  rw [hs]
  show mapFind (c.groups ++ s) k' ≠ none
  rw [mapFind_append_left hg]
  simp

theorem mapFind_newOptGroup_keep {c : Config} {k' : String} {g : OptGroup} (k f : String)
    (h : mapFind c.groups k' = some g) :
    mapFind (c.newOptGroup k f).groups k' = some g := by
  obtain ⟨s, hs⟩ := newOptGroup_eq_append c k f
  rw [hs]
  exact mapFind_append_left h

theorem newGroupChain_eq_append (segs : List String) :
    ∀ (c : Config) (done : List String),
      ∃ s, c.newGroupChain done segs = { c with groups := c.groups ++ s } := by
  induction segs with
  | nil =>
    intro c done
    refine ⟨[], ?_⟩
    rw [Config.newGroupChain]
    simp
  | cons gname rest ih =>
    intro c done
    rw [Config.newGroupChain]
    obtain ⟨s1, h1⟩ := newOptGroup_eq_append c
      (goJoin c.groupSep (done ++ [gname])) (goJoin c.groupSep (done ++ [gname]))
    obtain ⟨s2, h2⟩ := newOptGroup_eq_append
      (c.newOptGroup (goJoin c.groupSep (done ++ [gname])) (goJoin c.groupSep (done ++ [gname])))
      gname (goJoin c.groupSep (done ++ [gname]))
    obtain ⟨s3, h3⟩ := ih
      ((c.newOptGroup (goJoin c.groupSep (done ++ [gname]))
          (goJoin c.groupSep (done ++ [gname]))).newOptGroup gname
        (goJoin c.groupSep (done ++ [gname])))
      (done ++ [gname])
    refine ⟨s1 ++ s2 ++ s3, ?_⟩
    rw [h3, h2, h1]
    simp [List.append_assoc]

theorem getGroupByNameNew_eq_append (c : Config) (n : String) :
    ∃ s, (c.getGroupByNameNew n).1 = { c with groups := c.groups ++ s } := by
  rw [Config.getGroupByNameNew]
  by_cases h : trimPre n c.groupPre = ""
  · simp only [if_pos h]
    exact newOptGroup_eq_append c c.groupName c.groupName
  · simp only [if_neg h]
    exact newGroupChain_eq_append (goSplit (trimPre n c.groupPre) c.groupSep) c []

theorem NewGroup_groups_keep {c : Config} {k : String} {g : OptGroup} {path : String}
    {c' : Config} {og : Option OptGroup}
    (hrun : c.NewGroup path = .ok (c', og))
    (h : mapFind c.groups k = some g) : mapFind c'.groups k = some g := by
  rw [Config.NewGroup] at hrun
  by_cases hp : c.parsed
  · rw [if_pos (by simpa using hp)] at hrun
    exact Except.noConfusion hrun
  · rw [if_neg (by simpa using hp)] at hrun
    have hc' : c' = (c.getGroupByNameNew path).1 :=
      (congrArg Prod.fst (Except.ok.inj hrun)).symm
    obtain ⟨s, hs⟩ := getGroupByNameNew_eq_append c path
    rw [hc', hs]
    exact mapFind_append_left h

/-!  Field preservation through group creation. -/

theorem getGroupByNameNew_parsers (c : Config) (n : String) :
    (c.getGroupByNameNew n).1.parsers = c.parsers := by
  obtain ⟨s, hs⟩ := getGroupByNameNew_eq_append c n
  rw [hs]

theorem getGroupByNameNew_parsed (c : Config) (n : String) :
    (c.getGroupByNameNew n).1.parsed = c.parsed := by
  obtain ⟨s, hs⟩ := getGroupByNameNew_eq_append c n
  rw [hs]

theorem getGroupByNameNew_validators (c : Config) (n : String) :
    (c.getGroupByNameNew n).1.validators = c.validators := by
  obtain ⟨s, hs⟩ := getGroupByNameNew_eq_append c n
  rw [hs]

/-!  The parse pipeline under successful hooks. -/

theorem runPhase_ok (ph : Phase) (f : Parser → Option String) (ps : List Parser)
    (h : ∀ p ∈ ps, f p = none) :
    runPhase ph f ps = (ps.map (fun p => (ph, p.name)), none) := by
  induction ps with
  | nil => rfl
  | cons p rest ih =>
    have hp : f p = none := h p (by simp)
    have hr := ih (fun q hq => h q (by simp [hq]))
    rw [runPhase]
    simp only [hp, hr, List.map]

theorem allHooksOk_parts {c : Config} (h : c.allHooksOk = true) :
    ∀ p ∈ c.parsers, p.preErr = none ∧ p.parseErr = none ∧ p.postErr = none := by
  intro p hp
  have hb := List.all_eq_true.mp h p hp
  simp only [Parser.hooksOk, Bool.and_eq_true, Option.isNone_iff_eq_none] at hb
  exact ⟨hb.1.1, hb.1.2, hb.2⟩

theorem parseStart_parsers (c : Config) (args : List String) :
    (parseStart c args).parsers = c.parsers := by
  rw [parseStart]
  exact getGroupByNameNew_parsers c c.groupName

theorem parseFinal_parsers (c : Config) (args : List String) :
    (parseFinal c args).parsers = c.parsers := by
  rw [parseFinal]
  exact parseStart_parsers c args

theorem parseStart_parsed (c : Config) (args : List String) :
    (parseStart c args).parsed = c.parsed := by
  rw [parseStart]
  exact getGroupByNameNew_parsed c c.groupName

theorem parseFinal_parsed (c : Config) (args : List String) :
    (parseFinal c args).parsed = true := rfl

theorem parseFinal_groups (c : Config) (args : List String) :
    (parseFinal c args).groups = (c.getGroupByNameNew c.groupName).1.groups := rfl

theorem parseFinal_validators (c : Config) (args : List String) :
    (parseFinal c args).validators = c.validators := by
  rw [parseFinal, parseStart]
  exact getGroupByNameNew_validators c c.groupName

theorem Parse_no_panic (c : Config) (args : List String) (hp : c.parsed = false) :
    c.Parse args = .ok (c.parseRun args) := by
  rw [Config.Parse, if_neg (by simp [hp])]

theorem parseRun_hooksOk_eq (c : Config) (args : List String) (hok : c.allHooksOk = true) :
    c.parseRun args =
      match checkGroups (parseFinal c args).groups with
      | some e => (parseFinal c args, some e, parseTrace c)
      | none =>
        match runValidators c.validators with
        | some e => (parseFinal c args, some e, parseTrace c)
        | none => (parseFinal c args, none, parseTrace c) := by
  have h1 := allHooksOk_parts hok
  have hpre := runPhase_ok Phase.pre Parser.preErr c.parsers (fun p hq => (h1 p hq).1)
  have hparse := runPhase_ok Phase.parse Parser.parseErr c.parsers (fun p hq => (h1 p hq).2.1)
  have hpost := runPhase_ok Phase.post Parser.postErr c.parsers (fun p hq => (h1 p hq).2.2)
  rw [Config.parseRun, parseStart_parsers, parseFinal_parsers, hpre, hparse, hpost,
    parseFinal_validators]
  rfl

/-- Amended claim C2: if `Parse` fails during the pre-hook phase the
registry is left unparsed (`Parsed` false) and `Parse` may be called
again without panicking; once the pre phase has passed, the returned
config is parsed for good and any later `Parse` call panics with
`ErrParsed`, even though `Parse` returned an error. -/
theorem parse_failure_stage_determines_retry (c : Config) (args : List String)
    (hp : c.parsed = false) : C2Prop c args := by
  rw [C2Prop]
  intro c' err tr h
  rw [Config.Parse, if_neg (by simp [hp])] at h
  have hrun : c.parseRun args = (c', err, tr) := Except.ok.inj h
  rw [Config.parseRun, parseStart_parsers, parseFinal_parsers] at hrun
  cases hpre : (runPhase Phase.pre Parser.preErr c.parsers).2 with
  | some pe =>
    rw [hpre] at hrun
    have hc' : c' = parseStart c args := (congrArg (fun t => t.1) hrun).symm
    have hcp : c'.parsed = false := by
      rw [hc', parseStart_parsed]
      exact hp
    refine ⟨fun _ => ⟨hcp, fun args2 => ⟨c'.parseRun args2, ?_⟩⟩, fun hnone => ?_⟩
    · rw [Config.Parse, if_neg (by simp [hcp])]
    · exact absurd hnone (by simp)
  | none =>
    rw [hpre] at hrun
    have hc' : c' = parseFinal c args := by
      revert hrun
      cases h2 : (runPhase Phase.parse Parser.parseErr c.parsers).2 with
      | some pe => intro hrun; exact (congrArg (fun t => t.1) hrun).symm
      | none =>
        cases h3 : (runPhase Phase.post Parser.postErr c.parsers).2 with
        | some pe => intro hrun; exact (congrArg (fun t => t.1) hrun).symm
        | none =>
          cases h4 : checkGroups (parseFinal c args).groups with
          | some e => intro hrun; exact (congrArg (fun t => t.1) hrun).symm
          | none =>
            cases h5 : runValidators (parseFinal c args).validators with
            | some e => intro hrun; exact (congrArg (fun t => t.1) hrun).symm
            | none => intro hrun; exact (congrArg (fun t => t.1) hrun).symm
    have hparsedtrue : c'.parsed = true := by
      rw [hc', parseFinal_parsed]
    refine ⟨fun hsome => absurd rfl hsome, fun _ => ⟨hparsedtrue, fun args2 => ?_⟩⟩
    rw [Config.Parse, if_pos (by simp [hparsedtrue])]

/-- Witness for the amended C2 at a concrete config whose single
parser fails in the parse phase. -/
theorem parse_failure_stage_determines_retry_witness :
    c2cfg.parsed = false ∧ C2Prop c2cfg [] :=
  ⟨by decide, parse_failure_stage_determines_retry c2cfg [] (by decide)⟩

/-!  Soundness and completeness of the required-option walk. -/

theorem checkRequiredOption_sound {g : OptGroup} {err : GoErr}
    (h : g.checkRequiredOption = some err) :
    ∃ e ∈ g.opts, e.opt.Required = true ∧ e.value = none ∧ e.opt.Default = none ∧
      err = .missingRequired g.fullName e.opt.Name := by
  rw [OptGroup.checkRequiredOption] at h
  cases hf : g.opts.find? (fun e => e.opt.Required && e.value.isNone && e.opt.Default.isNone) with
  | none => rw [hf] at h; exact Option.noConfusion h
  | some e =>
    rw [hf] at h
    have hmem := List.mem_of_find?_eq_some hf
    have hpe := List.find?_some hf
    simp only [Bool.and_eq_true, Option.isNone_iff_eq_none] at hpe
    refine ⟨e, hmem, hpe.1.1, hpe.1.2, hpe.2, ?_⟩
    exact (Option.some_inj.mp h).symm

theorem checkRequiredOption_complete {g : OptGroup} {e : OptEntry}
    (hmem : e ∈ g.opts) (hr : e.opt.Required = true) (hv : e.value = none)
    (hd : e.opt.Default = none) : g.checkRequiredOption ≠ none := by
  rw [OptGroup.checkRequiredOption]
  cases hf : g.opts.find? (fun e => e.opt.Required && e.value.isNone && e.opt.Default.isNone) with
  | some e2 => simp
  | none =>
    exfalso
    have := List.find?_eq_none.mp hf e hmem
    apply this
    simp [hr, hv, hd]

theorem checkGroups_sound {gs : List (String × OptGroup)} {err : GoErr}
    (h : checkGroups gs = some err) :
    ∃ k g e, (k, g) ∈ gs ∧ e ∈ g.opts ∧ e.opt.Required = true ∧ e.value = none ∧
      e.opt.Default = none ∧ err = .missingRequired g.fullName e.opt.Name := by
  induction gs with
  | nil => exact Option.noConfusion h
  | cons p rest ih =>
    obtain ⟨k, g⟩ := p
    rw [checkGroups] at h
    cases hc : g.checkRequiredOption with
    | some e0 =>
      rw [hc] at h
      obtain ⟨e, hmem, h1, h2, h3, he⟩ := checkRequiredOption_sound hc
      exact ⟨k, g, e, by simp, hmem, h1, h2, h3, by rw [← Option.some_inj.mp h, he]⟩
    | none =>
      rw [hc] at h
      obtain ⟨k2, g2, e2, hmem2, hrest⟩ := ih h
      exact ⟨k2, g2, e2, by simp [hmem2], hrest⟩

theorem checkGroups_complete {gs : List (String × OptGroup)} {k : String}
    {g : OptGroup} {e : OptEntry}
    (hmem : (k, g) ∈ gs) (he : e ∈ g.opts) (hr : e.opt.Required = true)
    (hv : e.value = none) (hd : e.opt.Default = none) : checkGroups gs ≠ none := by
  induction gs with
  | nil => simp at hmem
  | cons p rest ih =>
    obtain ⟨k0, g0⟩ := p
    rw [checkGroups]
    cases hc : g0.checkRequiredOption with
    | some e0 => simp
    | none =>
      rcases List.mem_cons.mp hmem with heq | hmem2
      · exfalso
        have hg : g = g0 := congrArg Prod.snd heq
        rw [hg] at he
        exact checkRequiredOption_complete he hr hv hd hc
      · exact ih hmem2

theorem runValidators_shape {vs : List (Option String)} {err : GoErr}
    (h : runValidators vs = some err) : ∃ msg, err = .validatorFailed msg := by
  induction vs with
  | nil => exact Option.noConfusion h
  | cons v rest ih =>
    cases v with
    | some m =>
      have hv : runValidators (some m :: rest) = some (.validatorFailed m) := rfl
      rw [hv] at h
      exact ⟨m, (Option.some_inj.mp h).symm⟩
    | none =>
      have hv : runValidators (none :: rest) = runValidators rest := rfl
      rw [hv] at h
      exact ih h

theorem violatingIn_append_left {gs s : List (String × OptGroup)} {gn onm : String}
    (h : violatingIn gs gn onm) : violatingIn (gs ++ s) gn onm := by
  obtain ⟨k, g, e, hmem, hrest⟩ := h
  exact ⟨k, g, e, List.mem_append_left s hmem, hrest⟩

/-- Claim C4: when every parser hook succeeds, a required option with
no default that was never written makes `Parse` fail with a
missing-required-option error naming a violating group and option; and
any missing-required-option error returned by `Parse` names an option
that is required, valueless and defaultless, so an option written by
any source at any priority, including 0, is never reported. -/
theorem parse_missing_required (c : Config) (args : List String)
    (hp : c.parsed = false) (hok : c.allHooksOk = true) : C4Prop c args := by
  rw [C4Prop]
  have hparse := Parse_no_panic c args hp
  have hrun := parseRun_hooksOk_eq c args hok
  constructor
  · rintro ⟨gn, onm, k, g, e, hmem, hmeme, hfn, hon, hr, hv, hd⟩
    obtain ⟨s, hs⟩ := getGroupByNameNew_eq_append c c.groupName
    have hmem2 : (k, g) ∈ (parseFinal c args).groups := by
      rw [parseFinal_groups, hs]
      exact List.mem_append_left s hmem
    have hne := checkGroups_complete hmem2 hmeme hr hv hd
    cases hcg : checkGroups (parseFinal c args).groups with
    | none => exact absurd hcg hne
    | some err =>
      obtain ⟨k2, g2, e2, hm2, hme2, hr2, hv2, hd2, herr⟩ := checkGroups_sound hcg
      rw [hcg] at hrun
      refine ⟨parseFinal c args, parseTrace c, g2.fullName, e2.opt.Name, ?_, ?_⟩
      · rw [hparse, hrun, herr]
      · exact ⟨k2, g2, e2, hm2, hme2, rfl, rfl, hr2, hv2, hd2⟩
  · intro c' tr gn onm h
    rw [hparse, hrun] at h
    cases hcg : checkGroups (parseFinal c args).groups with
    | some err =>
      rw [hcg] at h
      have hinj := Except.ok.inj h
      have herr : err = .missingRequired gn onm := by
        have := congrArg (fun t => t.2.1) hinj
        exact Option.some_inj.mp this
      have hc' : c' = parseFinal c args := (congrArg (fun t => t.1) hinj).symm
      obtain ⟨k2, g2, e2, hm2, hme2, hr2, hv2, hd2, herr2⟩ := checkGroups_sound hcg
      rw [herr] at herr2
      have hgn : gn = g2.fullName := congrArg (fun t => match t with
        | GoErr.missingRequired a _ => a
        | _ => gn) herr2
      have hon : onm = e2.opt.Name := congrArg (fun t => match t with
        | GoErr.missingRequired _ b => b
        | _ => onm) herr2
      rw [hc', hgn, hon]
      exact ⟨k2, g2, e2, hm2, hme2, rfl, rfl, hr2, hv2, hd2⟩
    | none =>
      rw [hcg] at h
      cases hval : runValidators c.validators with
      | some e =>
        rw [hval] at h
        obtain ⟨msg, hmsg⟩ := runValidators_shape hval
        subst hmsg
        have hinj := Except.ok.inj h
        have := congrArg (fun t => t.2.1) hinj
        have h2 := Option.some_inj.mp this
        cases h2
      | none =>
        rw [hval] at h
        have hinj := Except.ok.inj h
        have := congrArg (fun t => t.2.1) hinj
        simp at this

/-- Witness for C4 at a concrete config holding a required,
defaultless, unwritten option ro in group g. -/
theorem parse_missing_required_witness :
    c4cfg.parsed = false ∧ c4cfg.allHooksOk = true ∧
    ((∃ gn onm, violatingIn c4cfg.groups gn onm) →
      ∃ c' tr gn onm, c4cfg.Parse [] = .ok (c', some (.missingRequired gn onm), tr) ∧
        violatingIn c'.groups gn onm) :=
  ⟨by decide, by decide, (parse_missing_required c4cfg [] (by decide) (by decide)).1⟩

/-!  Stability of the parser sort. -/

theorem filter_orderedInsert (n : Int) (x : Parser) (l : List Parser) :
    (List.orderedInsert parserLE x l).filter (fun p => p.priority == n) =
      if x.priority = n then x :: l.filter (fun p => p.priority == n)
      else l.filter (fun p => p.priority == n) := by
  induction l with
  | nil =>
    by_cases hx : x.priority = n
    · simp [List.orderedInsert, List.filter, hx]
    · have hb : (x.priority == n) = false := by simp [hx]
      simp [List.orderedInsert, List.filter, hb, hx]
  | cons y ys ih =>
    by_cases hxy : parserLE x y
    · by_cases hx : x.priority = n <;>
        simp [List.orderedInsert, hxy, List.filter_cons, hx, beq_iff_eq]
    · have hyx : y.priority < x.priority := by
        rw [parserLE] at hxy
        omega
      by_cases hx : x.priority = n
      · have hy : ¬ (y.priority = n) := by omega
        simp [List.orderedInsert, hxy, List.filter_cons, hx, hy, ih, beq_iff_eq]
      · simp [List.orderedInsert, hxy, List.filter_cons, hx, ih, beq_iff_eq]

theorem filter_sortParsers (n : Int) (l : List Parser) :
    (sortParsers l).filter (fun p => p.priority == n) =
      l.filter (fun p => p.priority == n) := by
  induction l with
  | nil => rfl
  | cons x xs ih =>
    rw [sortParsers, List.insertionSort, filter_orderedInsert]
    by_cases hx : x.priority = n
    · rw [if_pos hx]
      show x :: (sortParsers xs).filter _ = _
      rw [ih, List.filter_cons]
      simp [hx, beq_iff_eq]
    · rw [if_neg hx]
      show (sortParsers xs).filter _ = _
      rw [ih, List.filter_cons]
      simp [hx, beq_iff_eq]

theorem Parse_hooksOk_cases (c : Config) (args : List String)
    (hp : c.parsed = false) (hok : c.allHooksOk = true) :
    ∃ d e, c.Parse args = .ok (d, e, parseTrace c) := by
  rw [Parse_no_panic c args hp, parseRun_hooksOk_eq c args hok]
  cases hcg : checkGroups (parseFinal c args).groups with
  | some e => exact ⟨parseFinal c args, some e, rfl⟩
  | none =>
    cases hval : runValidators c.validators with
    | some e => exact ⟨parseFinal c args, some e, rfl⟩
    | none => exact ⟨parseFinal c args, none, rfl⟩

/-- Claim C5: `AddParser` keeps the parser list sorted ascending by
declared priority with a stable sort (per-priority filters are
preserved, and the result is a permutation of the old list followed by
the new parsers), and when every hook succeeds `Parse` invokes the
three phases in order, each over the parsers in that ascending list
order. -/
theorem addParser_sorted_stable (c : Config) (ps : List Parser)
    (hp : c.parsed = false) : C5Prop c ps := by
  rw [C5Prop]
  refine ⟨{ c with parsers := sortParsers (c.parsers ++ ps) }, ?_, ?_, ?_, ?_, ?_⟩
  · rw [Config.AddParser, if_neg (by simp [hp])]
  · show List.Sorted parserLE (sortParsers (c.parsers ++ ps))
    rw [sortParsers]
    exact List.sorted_insertionSort parserLE (c.parsers ++ ps)
  · intro n
    exact filter_sortParsers n (c.parsers ++ ps)
  · show (sortParsers (c.parsers ++ ps)).Perm (c.parsers ++ ps)
    rw [sortParsers]
    exact List.perm_insertionSort parserLE (c.parsers ++ ps)
  · intro hok args
    obtain ⟨d, e, hde⟩ :=
      Parse_hooksOk_cases { c with parsers := sortParsers (c.parsers ++ ps) } args hp hok
    exact ⟨d, e, by rw [hde]; rfl⟩

/-- Witness for C5 at a concrete batch of out-of-order parsers with a
duplicate priority. -/
theorem addParser_sorted_stable_witness :
    NewConfig.parsed = false ∧ C5Prop NewConfig ps0 :=
  ⟨by decide, addParser_sorted_stable NewConfig ps0 (by decide)⟩

/-- Claim C6: on a parsed config, `NewGroup`, option and struct
registration, `AddParser`, `SetGroupSeparator` (with its own earlier
panic for the always-invalid empty separator), `SetDefaultGroupName`,
`Parse` and `RemoveParser` all panic, returning no state; and
`SetOptValue` preserves the parsed flag, so the freeze lasts for the
rest of the program. -/
theorem parsed_freezes (c : Config) (hp : c.parsed = true) : C6Prop c := by
  rw [C6Prop]
  refine ⟨?_, ?_, ?_, ?_, ?_, ?_, ?_, ?_, ?_, ?_⟩
  · intro g
    rw [Config.NewGroup, if_pos (by simp [hp])]
  · intro g cl o
    rw [Config.registerOpt, if_pos (by simp [hp])]
  · intro g os vd
    rw [Config.registerStruct.eq_def, if_pos (by simp [hp])]
  · intro ps
    rw [Config.AddParser, if_pos (by simp [hp])]
  · intro sep hsep
    rw [Config.SetGroupSeparator, if_neg hsep, if_pos (by simp [hp])]
  · rw [Config.SetGroupSeparator, if_pos rfl]
  · intro n
    rw [Config.SetDefaultGroupName, if_pos (by simp [hp])]
  · intro args
    rw [Config.Parse, if_pos (by simp [hp])]
  · intro n
    rw [Config.RemoveParser, if_pos (by simp [hp])]
  · intro p gn onm v
    rw [Config.SetOptValue]
    by_cases hneg : p < 0
    · rw [if_pos hneg]
      exact hp
    · rw [if_neg hneg]
      cases hm : mapFind c.groups (c.lookupKey gn) with
      | none => exact hp
      | some g => exact hp

/-- Witness for C6 at a concrete config that has completed `Parse`. -/
theorem parsed_freezes_witness : pcfg.parsed = true ∧ C6Prop pcfg :=
  ⟨by decide, parsed_freezes pcfg (by decide)⟩

/-- Amended claim C8: group creation never rebinds an existing key of
the group map, so the bare-segment alias keeps the binding made by the
first creation and an earlier group shadows a later one with the same
last segment. -/
theorem newGroup_never_rebinds (c : Config) (path k : String) (g : OptGroup)
    (hk : mapFind c.groups k = some g) : C8Prop c path k g := by
  rw [C8Prop]
  intro c' og hrun
  exact NewGroup_groups_keep hrun hk

/-- Witness for the amended C8: after creating x.log the alias log is
bound to that path, and creating y.log leaves the binding in place. -/
theorem newGroup_never_rebinds_witness :
    mapFind c8a.groups "log" = some ⟨"log", "x.log", []⟩ ∧
    C8Prop c8a "y.log" "log" ⟨"log", "x.log", []⟩ :=
  ⟨by decide, newGroup_never_rebinds c8a "y.log" "log" ⟨"log", "x.log", []⟩ (by decide)⟩

/-!  Associativity of incremental group creation. -/

theorem newOptGroup2_fields (c : Config) (k1 f1 k2 f2 : String) :
    ((c.newOptGroup k1 f1).newOptGroup k2 f2).groupSep = c.groupSep ∧
    ((c.newOptGroup k1 f1).newOptGroup k2 f2).groupPre = c.groupPre ∧
    ((c.newOptGroup k1 f1).newOptGroup k2 f2).parsed = c.parsed := by
  obtain ⟨s1, h1⟩ := newOptGroup_eq_append c k1 f1
  obtain ⟨s2, h2⟩ := newOptGroup_eq_append (c.newOptGroup k1 f1) k2 f2
  rw [h2, h1]
  exact ⟨rfl, rfl, rfl⟩

/-- Claim C7: with the default separator and default-group prefix,
creating the group a.b.c in one `NewGroup` call yields exactly the
same config and returned group as creating a, then a.b, then a.b.c in
three calls, over any starting group map. -/
theorem newGroup_chain_assoc (c : Config) (hp : c.parsed = false)
    (hsep : c.groupSep = ".") (hpre2 : c.groupPre = "DEFAULT.") : C7Prop c := by
  have t1 : trimPre "a" "DEFAULT." = "a" := by decide
  have t2 : trimPre "a.b" "DEFAULT." = "a.b" := by decide
  have t3 : trimPre "a.b.c" "DEFAULT." = "a.b.c" := by decide
  have s1 : goSplit "a" "." = ["a"] := by decide
  have s2 : goSplit "a.b" "." = ["a", "b"] := by decide
  have s3 : goSplit "a.b.c" "." = ["a", "b", "c"] := by decide
  have j1 : goJoin "." ([] ++ ["a"]) = "a" := by decide
  have j2 : goJoin "." ([] ++ ["a"] ++ ["b"]) = "a.b" := by decide
  have j3 : goJoin "." ([] ++ ["a"] ++ ["b"] ++ ["c"]) = "a.b.c" := by decide
  -- fields of the intermediate configs
  have hfA := newOptGroup2_fields c "a" "a" "a" "a"
  have hsepA : ((c.newOptGroup "a" "a").newOptGroup "a" "a").groupSep = "." := by
    rw [hfA.1, hsep]
  have hpreA : ((c.newOptGroup "a" "a").newOptGroup "a" "a").groupPre = "DEFAULT." := by
    rw [hfA.2.1, hpre2]
  have hpA : ((c.newOptGroup "a" "a").newOptGroup "a" "a").parsed = false := by
    rw [hfA.2.2]
    exact hp
  have hfB := newOptGroup2_fields ((c.newOptGroup "a" "a").newOptGroup "a" "a")
    "a.b" "a.b" "b" "a.b"
  have hsepB : ((((c.newOptGroup "a" "a").newOptGroup "a" "a").newOptGroup "a.b"
      "a.b").newOptGroup "b" "a.b").groupSep = "." := by
    rw [hfB.1, hsepA]
  have hpreB : ((((c.newOptGroup "a" "a").newOptGroup "a" "a").newOptGroup "a.b"
      "a.b").newOptGroup "b" "a.b").groupPre = "DEFAULT." := by
    rw [hfB.2.1, hpreA]
  have hpB : ((((c.newOptGroup "a" "a").newOptGroup "a" "a").newOptGroup "a.b"
      "a.b").newOptGroup "b" "a.b").parsed = false := by
    rw [hfB.2.2]
    exact hpA
  -- presence of already-created keys
  have pA : mapFind ((c.newOptGroup "a" "a").newOptGroup "a" "a").groups "a" ≠ none :=
    mapFind_newOptGroup_self (c.newOptGroup "a" "a") "a" "a"
  have pBa : mapFind ((((c.newOptGroup "a" "a").newOptGroup "a" "a").newOptGroup "a.b"
      "a.b").newOptGroup "b" "a.b").groups "a" ≠ none :=
    mapFind_newOptGroup_mono "b" "a.b" (mapFind_newOptGroup_mono "a.b" "a.b" pA)
  have pBab : mapFind ((((c.newOptGroup "a" "a").newOptGroup "a" "a").newOptGroup "a.b"
      "a.b").newOptGroup "b" "a.b").groups "a.b" ≠ none :=
    mapFind_newOptGroup_mono "b" "a.b"
      (mapFind_newOptGroup_self ((c.newOptGroup "a" "a").newOptGroup "a" "a") "a.b" "a.b")
  have pBb : mapFind ((((c.newOptGroup "a" "a").newOptGroup "a" "a").newOptGroup "a.b"
      "a.b").newOptGroup "b" "a.b").groups "b" ≠ none :=
    mapFind_newOptGroup_self (((c.newOptGroup "a" "a").newOptGroup "a" "a").newOptGroup
      "a.b" "a.b") "b" "a.b"
  -- the three incremental calls and the direct call
  have E1 : c.NewGroup "a" =
      .ok ((c.newOptGroup "a" "a").newOptGroup "a" "a",
        mapFind ((c.newOptGroup "a" "a").newOptGroup "a" "a").groups "a") := by
    rw [Config.NewGroup, if_neg (by simp [hp]), Config.getGroupByNameNew, hpre2, t1]
    rw [if_neg (show ¬ ("a" : String) = "" by decide)]
    rw [hsep, s1, Config.newGroupChain, hsep, j1, Config.newGroupChain]
  have E2 : ((c.newOptGroup "a" "a").newOptGroup "a" "a").NewGroup "a.b" =
      .ok ((((c.newOptGroup "a" "a").newOptGroup "a" "a").newOptGroup "a.b"
          "a.b").newOptGroup "b" "a.b",
        mapFind ((((c.newOptGroup "a" "a").newOptGroup "a" "a").newOptGroup "a.b"
          "a.b").newOptGroup "b" "a.b").groups "a.b") := by
    rw [Config.NewGroup, if_neg (by simp [hpA]), Config.getGroupByNameNew, hpreA, t2]
    rw [if_neg (show ¬ ("a.b" : String) = "" by decide)]
    rw [hsepA, s2, Config.newGroupChain, hsepA, j1]
    rw [newOptGroup_found "a" pA, newOptGroup_found "a" pA]
    rw [Config.newGroupChain, hsepA, j2, Config.newGroupChain]
  have E3a : ((((c.newOptGroup "a" "a").newOptGroup "a" "a").newOptGroup "a.b"
      "a.b").newOptGroup "b" "a.b").NewGroup "a.b.c" =
      .ok ((((((c.newOptGroup "a" "a").newOptGroup "a" "a").newOptGroup "a.b"
            "a.b").newOptGroup "b" "a.b").newOptGroup "a.b.c" "a.b.c").newOptGroup
          "c" "a.b.c",
        mapFind ((((((c.newOptGroup "a" "a").newOptGroup "a" "a").newOptGroup "a.b"
            "a.b").newOptGroup "b" "a.b").newOptGroup "a.b.c" "a.b.c").newOptGroup
          "c" "a.b.c").groups "a.b.c") := by
    rw [Config.NewGroup, if_neg (by simp [hpB]), Config.getGroupByNameNew, hpreB, t3]
    rw [if_neg (show ¬ ("a.b.c" : String) = "" by decide)]
    rw [hsepB, s3, Config.newGroupChain, hsepB, j1]
    rw [newOptGroup_found "a" pBa, newOptGroup_found "a" pBa]
    rw [Config.newGroupChain, hsepB, j2]
    rw [newOptGroup_found "a.b" pBab, newOptGroup_found "a.b" pBb]
    rw [Config.newGroupChain, hsepB, j3, Config.newGroupChain]
  have E3b : c.NewGroup "a.b.c" =
      .ok ((((((c.newOptGroup "a" "a").newOptGroup "a" "a").newOptGroup "a.b"
            "a.b").newOptGroup "b" "a.b").newOptGroup "a.b.c" "a.b.c").newOptGroup
          "c" "a.b.c",
        mapFind ((((((c.newOptGroup "a" "a").newOptGroup "a" "a").newOptGroup "a.b"
            "a.b").newOptGroup "b" "a.b").newOptGroup "a.b.c" "a.b.c").newOptGroup
          "c" "a.b.c").groups "a.b.c") := by
    rw [Config.NewGroup, if_neg (by simp [hp]), Config.getGroupByNameNew, hpre2, t3]
    rw [if_neg (show ¬ ("a.b.c" : String) = "" by decide)]
    rw [hsep, s3, Config.newGroupChain, hsep, j1]
    rw [Config.newGroupChain, hsepA, j2]
    rw [Config.newGroupChain, hsepB, j3, Config.newGroupChain]
  rw [C7Prop]
  refine ⟨_, _, _, _, E1, E2, ?_⟩
  rw [E3a, E3b]

/-- Witness for C7 at the fresh config, whose separator is a dot and
whose default-group prefix is DEFAULT followed by a dot. -/
theorem newGroup_chain_assoc_witness :
    NewConfig.parsed = false ∧ NewConfig.groupSep = "." ∧
    NewConfig.groupPre = "DEFAULT." ∧ C7Prop NewConfig :=
  ⟨by decide, by decide, by decide,
    newGroup_chain_assoc NewConfig (by decide) (by decide) (by decide)⟩

end GoConfig
